import Mathlib

/-!
Shallow embedding of `src/firmware/tools/esp32_terminal.py` (class
`ESP32Terminal`), covering the components the claims are about:

* the bounded line buffers `bt_buffer` / `serial_buffer` and their
  append-then-trim maintenance in `collect_bt_messages` /
  `collect_serial_messages`, together with the drain performed by
  `render_bt_buffer` / `render_serial_buffer` (the BoundedLineQueue of
  the specification);
* the pull-channel reader `read_serial_thread` (ProcessStreamSource):
  banner filtering, time/count throttled batching, end-of-stream and
  read-error handling, modelled as a function over a list of read
  events;
* the command dispatch path `send_command` / `on_input_submitted`
  (CommandDispatcher), modelled as the list of awaited effects the
  coroutine performs plus its boolean result;
* the push-channel callback `notification_handler`
  (NotificationSource), with a byte-level UTF-8 decoder mirroring
  Python strict `bytes.decode` and the hex fallback of `bytes.hex()`.

Times are rationals (seconds); byte payloads are lists of naturals
below 256; decoded text is kept as a list of Unicode code points where
code-point level reasoning is needed.
-/

namespace ESP32Terminal

/-! ### Bounded line buffers

`collect_bt_messages` runs `self.bt_buffer.append(message)` followed by
`if len(self.bt_buffer) > 100: self.bt_buffer = self.bt_buffer[-100:]`.
The capacity (100 in the code) is kept as a parameter `C`. -/

/-- One buffered push: append the line, then trim to the last `C`
entries exactly as `buffer[-C:]` does. -/
def push (C : Nat) (buf : List String) (line : String) : List String :=
  if (buf ++ [line]).length > C then
    (buf ++ [line]).drop ((buf ++ [line]).length - C)
  else
    buf ++ [line]

/-- A sequence of pushes, oldest first. -/
def pushAll (C : Nat) (buf : List String) (lines : List String) : List String :=
  lines.foldl (push C) buf

/-- Drain as `render_bt_buffer` does: hand every buffered line to the display in
arrival order and reset the buffer to `[]`. Returns (drained lines,
new buffer contents). -/
def drain_all (buf : List String) : List String × List String :=
  (buf, [])

/-- The code capacity: `if len(self.bt_buffer) > 100`. -/
def BUFFER_CAPACITY : Nat := 100

/-- The last `C` elements of a list, as `buffer[-C:]` computes them. -/
def takeLast (C : Nat) (l : List String) : List String :=
  l.drop (l.length - C)

/-- Fallible push: the Python body of a push is an append and a
slice, neither of which can raise, and the surrounding collect loop
additionally swallows any exception (`except Exception: pass`), so the
fallible embedding always succeeds. -/
def pushE (C : Nat) (buf : List String) (line : String) :
    Except String (List String) :=
  Except.ok (push C buf line)

/-- A sequence of fallible pushes, stopping at the first error. -/
def pushAllE (C : Nat) (buf : List String) :
    List String → Except String (List String)
  | [] => Except.ok buf
  | l :: ls =>
    match pushE C buf l with
    | Except.ok buf2 => pushAllE C buf2 ls
    | Except.error e => Except.error e

/-! ### Pull channel: `read_serial_thread` -/

/-- Throttle interval: `(current_time - last_update) >= 0.1`. -/
def MIN_INTERVAL : ℚ := 1 / 10

/-- Throttle line count: `len(buffer) >= 20`. -/
def MIN_COUNT : Nat := 20

/-- Python line.rstrip over LF and CR: remove trailing newline and
carriage-return characters. -/
def rstripNL (s : String) : String :=
  String.mk ((s.data.reverse.dropWhile (fun c => c = '\n' || c = '\r')).reverse)

/-- Python message.startswith with the triple-dash banner marker. -/
def isBanner (s : String) : Bool :=
  List.isPrefixOf ['-', '-', '-'] s.data

/-- What one iteration of the reader loop observes: `readline` returned
a raw line; `readline` returned no data while `poll()` is still `None`;
`readline` returned no data and `poll()` reports the subprocess exited;
or the read raised an exception rendered as `msg`. Each observation
carries the wall-clock time `time.time()` of that iteration. -/
inductive ReadEvent
  | line (t : ℚ) (raw : String)
  | eofStillRunning (t : ℚ)
  | eofExited (t : ℚ)
  | readError (t : ℚ) (msg : String)
deriving DecidableEq

/-- A message put on `serial_message_queue` (queue B). A flush joins
the local buffer with newlines into one queue message; the model keeps
the joined lines as a list. -/
inductive SerialMsg
  | batch (lines : List String)
  | stopped
  | errorMsg (msg : String)
deriving DecidableEq

/-- The reader loop state: the local `buffer` list and `last_update`. -/
structure SerialState where
  buffer : List String
  lastUpdate : ℚ
deriving DecidableEq

/-- The body of `read_serial_thread`, run over a list of read events:
returns the sequence of messages pushed to queue B. A non-empty,
non-banner line is appended to the local buffer, which is flushed when
the minimum interval has elapsed since the last flush or the buffer has
reached the minimum count. On end-of-stream with the subprocess exited,
any remaining buffer is flushed, a final stop notice is pushed, and the
loop breaks (later events are ignored). The exception handler pushes an
error message and falls through to the next loop iteration. -/
def runLoop : List ReadEvent → SerialState → List SerialMsg
  | [], _ => []
  | ReadEvent.line t raw :: rest, st =>
    let message := rstripNL raw
    if message ≠ "" ∧ isBanner message = false then
      if t - st.lastUpdate ≥ MIN_INTERVAL ∨
          (st.buffer ++ [message]).length ≥ MIN_COUNT then
        SerialMsg.batch (st.buffer ++ [message]) :: runLoop rest ⟨[], t⟩
      else
        runLoop rest ⟨st.buffer ++ [message], st.lastUpdate⟩
    else
      runLoop rest st
  | ReadEvent.eofStillRunning _ :: rest, st => runLoop rest st
  | ReadEvent.eofExited _ :: _, st =>
    (if st.buffer = [] then [] else [SerialMsg.batch st.buffer]) ++
      [SerialMsg.stopped]
  | ReadEvent.readError _ msg :: rest, st =>
    SerialMsg.errorMsg msg :: runLoop rest st

/-! ### Command dispatch: `send_command` and `on_input_submitted` -/

/-- An effect the `send_command` coroutine performs or awaits, in
order: a `bt_log_widget.write`, a completed `write_gatt_char`, or an
awaited `asyncio.sleep` (no such call occurs in `send_command`; the
constructor exists so that the absence of a settle delay is expressible
rather than assumed). -/
inductive BtEffect
  | display (line : String)
  | gattWrite (payload : String)
  | sleep (seconds : ℚ)
deriving DecidableEq

/-- Total time spent in `sleep` effects before the coroutine returns. -/
def totalSleep : List BtEffect → ℚ
  | [] => 0
  | BtEffect.sleep s :: effs => s + totalSleep effs
  | BtEffect.display _ :: effs => totalSleep effs
  | BtEffect.gattWrite _ :: effs => totalSleep effs

/-- The "Not connected!" notice line, with its timestamp and markup. -/
def notConnectedLine (ts : String) : String :=
  "[dim]" ++ ts ++ "[/] [red]Not connected![/]"

/-- The local echo line `> command`, with its timestamp and markup. -/
def echoLine (ts command : String) : String :=
  "[dim]" ++ ts ++ "[/] [green]> " ++ command ++ "[/]"

/-- The in-band write-error line, with its timestamp and markup. -/
def errorLine (ts err : String) : String :=
  "[dim]" ++ ts ++ "[/] [red]Error: " ++ err ++ "[/]"

/-- Model of `send_command`: if the push channel is not connected or
there is no client, display the not-connected notice and return
`False`; otherwise display the echo line, then attempt the GATT write.
If the write succeeds return `True`; if it raises, display an in-band
error line and return `False` (the `gattWrite` effect records a
completed outbound write, so it is absent when the write raises).
`writeOk`/`writeErr` stand for the outcome of the underlying transport
write; `ts` is the formatted timestamp. The result is the ordered
effect list and the returned boolean. -/
def send_command (bt_connected hasClient writeOk : Bool)
    (writeErr ts command : String) : List BtEffect × Bool :=
  if bt_connected = false ∨ hasClient = false then
    ([BtEffect.display (notConnectedLine ts)], false)
  else if writeOk then
    ([BtEffect.display (echoLine ts command),
      BtEffect.gattWrite command], true)
  else
    ([BtEffect.display (echoLine ts command),
      BtEffect.display (errorLine ts writeErr)], false)

/-- Python `value.strip()` (over the whitespace characters that
`Char.isWhitespace` covers). -/
def strip (s : String) : String :=
  String.mk
    (((s.data.dropWhile Char.isWhitespace).reverse.dropWhile
      Char.isWhitespace).reverse)

/-- What the input-submission handler decides to do. -/
inductive InputAction
  | exitApp
  | dispatch (command : String)
  | noAction
deriving DecidableEq

/-- Model of `on_input_submitted`: strip the entered value; `quit`/`exit`/`q`
(case-insensitive) exit the app; otherwise a non-empty command is
dispatched as a background `send_command` task only when `bt_connected`
holds, and nothing happens in every other case. -/
def on_input_submitted (value : String) (bt_connected : Bool) : InputAction :=
  let command := strip value
  if command.toLower = "quit" ∨ command.toLower = "exit" ∨
      command.toLower = "q" then
    InputAction.exitApp
  else if command ≠ "" ∧ bt_connected then
    InputAction.dispatch command
  else
    InputAction.noAction

/-! ### Push channel: `notification_handler` -/

/-- A UTF-8 continuation byte, `0x80..0xBF`. -/
def isCont (b : Nat) : Bool :=
  decide (0x80 ≤ b) && decide (b ≤ 0xBF)

/-- Strict UTF-8 decoding of a byte list into Unicode code points,
mirroring the strict utf-8 codec of Python byte decoding: `none`
exactly when the Python call raises `UnicodeDecodeError` (overlong forms, surrogates,
out-of-range values and truncated sequences all rejected). -/
def decodeUtf8 : List Nat → Option (List Nat)
  | [] => some []
  | b :: rest =>
    if b ≤ 0x7F then
      (decodeUtf8 rest).map (fun cps => b :: cps)
    else if 0xC2 ≤ b ∧ b ≤ 0xDF then
      match rest with
      | b1 :: rest2 =>
        if isCont b1 then
          (decodeUtf8 rest2).map
            (fun cps => ((b - 0xC0) * 64 + (b1 - 0x80)) :: cps)
        else none
      | [] => none
    else if 0xE0 ≤ b ∧ b ≤ 0xEF then
      match rest with
      | b1 :: b2 :: rest3 =>
        if (if b = 0xE0 then 0xA0 else 0x80) ≤ b1 ∧
            b1 ≤ (if b = 0xED then 0x9F else 0xBF) ∧
            isCont b2 then
          (decodeUtf8 rest3).map
            (fun cps =>
              ((b - 0xE0) * 4096 + (b1 - 0x80) * 64 + (b2 - 0x80)) :: cps)
        else none
      | _ => none
    else if 0xF0 ≤ b ∧ b ≤ 0xF4 then
      match rest with
      | b1 :: b2 :: b3 :: rest4 =>
        if (if b = 0xF0 then 0x90 else 0x80) ≤ b1 ∧
            b1 ≤ (if b = 0xF4 then 0x8F else 0xBF) ∧
            isCont b2 ∧ isCont b3 then
          (decodeUtf8 rest4).map
            (fun cps =>
              ((b - 0xF0) * 262144 + (b1 - 0x80) * 4096 +
                (b2 - 0x80) * 64 + (b3 - 0x80)) :: cps)
        else none
      | _ => none
    else none

/-- Strip trailing LF and CR code points (10 and 13), as rstrip does. -/
def rstripCodes (cps : List Nat) : List Nat :=
  (cps.reverse.dropWhile (fun c => c = 10 || c = 13)).reverse

/-- One lowercase hex digit. -/
def hexDigit (n : Nat) : Char :=
  if n < 10 then Char.ofNat (48 + n) else Char.ofNat (87 + n)

/-- Python `data.hex()`: two lowercase hex digits per byte. -/
def bytesHex (data : List Nat) : String :=
  String.mk
    ((data.map (fun b => [hexDigit (b / 16 % 16), hexDigit (b % 16)])).flatten)

/-- What `notification_handler` puts on `bt_message_queue` for one
payload: the decoded, newline-stripped text, or the bracketed binary
hex fallback (the timestamp/markup wrapper around either is pure
formatting and is elided). -/
inductive NotifEntry
  | text (codepoints : List Nat)
  | binary (hexOfPayload : String)
deriving DecidableEq

/-- Model of `notification_handler`: try a strict UTF-8 decode of
the payload and strip trailing LF and CR; queue the text when the
stripped message is non-empty and queue nothing when it is empty. On
`UnicodeDecodeError`, queue the `[Binary: <hex>]` fallback built from
`data.hex()`. `none` means no queue put happens at all. -/
def notification_handler (data : List Nat) : Option NotifEntry :=
  match decodeUtf8 data with
  | some cps =>
    let message := rstripCodes cps
    if message ≠ [] then some (NotifEntry.text message) else none
  | none => some (NotifEntry.binary (bytesHex data))

/-! ### Lemmas about the bounded buffers -/

theorem push_eq_takeLast (C : Nat) (buf : List String) (l : String) :
    push C buf l = takeLast C (buf ++ [l]) := by
  unfold push takeLast
  split
  · rfl
  · next h =>
    have h0 : (buf ++ [l]).length - C = 0 := by omega
    rw [h0, List.drop_zero]

theorem length_push_le (C : Nat) (buf : List String) (l : String) :
    (push C buf l).length ≤ C := by
  unfold push
  split
  · next h => simp only [List.length_drop]; omega
  · next h => omega

theorem takeLast_append_takeLast (C : Nat) (xs ys : List String) :
    takeLast C (takeLast C xs ++ ys) = takeLast C (xs ++ ys) := by
  unfold takeLast
  by_cases hx : xs.length ≤ C
  · have h0 : xs.length - C = 0 := by omega
    simp [h0]
  · push_neg at hx
    have hlen : (xs.drop (xs.length - C)).length = C := by
      simp only [List.length_drop]; omega
    by_cases hy : ys.length ≤ C
    · have e1 : (xs.drop (xs.length - C) ++ ys).length - C = ys.length := by
        simp only [List.length_append, hlen]; omega
      rw [e1, List.drop_append_of_le_length (by omega), List.drop_drop]
      have e2 : (xs ++ ys).length - C ≤ xs.length := by
        simp only [List.length_append]; omega
      rw [List.drop_append_of_le_length e2]
      have e3 : xs.length - C + ys.length = (xs ++ ys).length - C := by
        simp only [List.length_append]; omega
      rw [e3]
    · push_neg at hy
      have e1 : (xs.drop (xs.length - C) ++ ys).length - C
          = (xs.drop (xs.length - C)).length + (ys.length - C) := by
        simp only [List.length_append, hlen]; omega
      rw [e1, List.drop_append]
      have e2 : (xs ++ ys).length - C = xs.length + (ys.length - C) := by
        simp only [List.length_append]; omega
      rw [e2, List.drop_append]

theorem pushAll_eq_takeLast (C : Nat) (lines : List String) :
    ∀ buf : List String, buf.length ≤ C →
      pushAll C buf lines = takeLast C (buf ++ lines) := by
  induction lines with
  | nil =>
    intro buf h
    have h0 : buf.length - C = 0 := by omega
    simp [pushAll, takeLast, h0]
  | cons l ls ih =>
    intro buf h
    have hstep : pushAll C buf (l :: ls) = pushAll C (push C buf l) ls := rfl
    rw [hstep, ih _ (length_push_le C buf l), push_eq_takeLast,
      takeLast_append_takeLast, List.append_assoc]
    rfl

theorem pushAll_length_le (C : Nat) (lines buf : List String)
    (h : buf.length ≤ C) : (pushAll C buf lines).length ≤ C := by
  rw [pushAll_eq_takeLast C lines buf h]
  unfold takeLast
  simp only [List.length_drop]
  omega

/-- C3: pushing `N > C` lines into a capacity-`C` bounded buffer and
then draining returns exactly the last `C` pushed lines in their
original relative order (drop-oldest), and the buffered length never
exceeds `C` after any prefix of the pushes. -/
theorem C3_bounded_queue_drop_oldest (C : Nat) (lines : List String)
    (h : C < lines.length) :
    (drain_all (pushAll C [] lines)).1 = lines.drop (lines.length - C)
    ∧ (drain_all (pushAll C [] lines)).1.length = C
    ∧ ∀ k, (pushAll C [] (lines.take k)).length ≤ C := by
  have hmain : (drain_all (pushAll C [] lines)).1
      = lines.drop (lines.length - C) := by
    show pushAll C [] lines = _
    rw [pushAll_eq_takeLast C lines [] (by simp)]
    rfl
  refine ⟨hmain, ?_, ?_⟩
  · rw [hmain]
    simp only [List.length_drop]
    omega
  · intro k
    exact pushAll_length_le C _ [] (by simp)

/-- Concrete run of C3: three distinct pushes into a capacity-2 buffer
drain to the last two lines in order. -/
theorem C3_bounded_queue_drop_oldest_witness :
    2 < (["a", "b", "c"] : List String).length
    ∧ (drain_all (pushAll 2 [] ["a", "b", "c"])).1 = ["b", "c"] := by
  refine ⟨by decide, ?_⟩
  rw [(C3_bounded_queue_drop_oldest 2 ["a", "b", "c"] (by decide)).1]
  decide

/-- C4: a push never raises and never blocks: in the fallible embedding
every sequence of pushes, of any length and from any buffer state,
returns `Except.ok` with the value of the total (wait-free) push
function. -/
theorem C4_push_never_fails (C : Nat) (buf lines : List String) :
    pushAllE C buf lines = Except.ok (pushAll C buf lines) := by
  induction lines generalizing buf with
  | nil => rfl
  | cons l ls ih => exact ih (push C buf l)

/-! ### Lemmas about the reader loop -/

theorem rstripNL_ok : rstripNL "OK\n" = "OK" := by decide

theorem not_zero_elapsed : ¬ ((0 : ℚ) - 0 ≥ MIN_INTERVAL) := by
  norm_num [MIN_INTERVAL]

theorem runLoop_line_flush (st : SerialState) (t : ℚ) (raw : String)
    (rest : List ReadEvent)
    (h1 : rstripNL raw ≠ "") (h2 : isBanner (rstripNL raw) = false)
    (h3 : t - st.lastUpdate ≥ MIN_INTERVAL ∨
      (st.buffer ++ [rstripNL raw]).length ≥ MIN_COUNT) :
    runLoop (ReadEvent.line t raw :: rest) st
      = SerialMsg.batch (st.buffer ++ [rstripNL raw])
          :: runLoop rest ⟨[], t⟩ := by
  simp only [runLoop]
  rw [if_pos ⟨h1, h2⟩, if_pos h3]

theorem runLoop_line_buffer (st : SerialState) (t : ℚ) (raw : String)
    (rest : List ReadEvent)
    (h1 : rstripNL raw ≠ "") (h2 : isBanner (rstripNL raw) = false)
    (h3 : ¬ (t - st.lastUpdate ≥ MIN_INTERVAL ∨
      (st.buffer ++ [rstripNL raw]).length ≥ MIN_COUNT)) :
    runLoop (ReadEvent.line t raw :: rest) st
      = runLoop rest ⟨st.buffer ++ [rstripNL raw], st.lastUpdate⟩ := by
  simp only [runLoop]
  rw [if_pos ⟨h1, h2⟩, if_neg h3]

theorem runLoop_line_skip (st : SerialState) (t : ℚ) (raw : String)
    (rest : List ReadEvent)
    (h : ¬ (rstripNL raw ≠ "" ∧ isBanner (rstripNL raw) = false)) :
    runLoop (ReadEvent.line t raw :: rest) st = runLoop rest st := by
  simp only [runLoop]
  rw [if_neg h]

theorem runLoop_burst_step (n : Nat) :
    ∀ (rest : List ReadEvent) (buf : List String), 0 < n →
      buf.length + n = MIN_COUNT →
      runLoop (List.replicate n (ReadEvent.line 0 "OK\n") ++ rest) ⟨buf, 0⟩
        = SerialMsg.batch (buf ++ List.replicate n "OK")
            :: runLoop rest ⟨[], 0⟩ := by
  induction n with
  | zero => intro rest buf hn hlen; omega
  | succ m ih =>
    intro rest buf hn hlen
    rw [List.replicate_succ, List.cons_append]
    by_cases hm : m = 0
    · subst hm
      rw [runLoop_line_flush ⟨buf, 0⟩ 0 "OK\n" _ (by decide) (by decide)
        (Or.inr (by simp only [rstripNL_ok, List.length_append,
          List.length_cons, List.length_nil]; omega))]
      have h0 : runLoop (List.replicate 0 (ReadEvent.line 0 "OK\n") ++ rest)
          ⟨[], 0⟩ = runLoop rest ⟨[], 0⟩ := by
        rw [List.replicate_zero, List.nil_append]
      rw [h0, rstripNL_ok]
      simp
    · have hm' : 0 < m := Nat.pos_of_ne_zero hm
      rw [runLoop_line_buffer ⟨buf, 0⟩ 0 "OK\n" _ (by decide) (by decide) ?hno]
      case hno =>
        rw [not_or]
        constructor
        · exact not_zero_elapsed
        · simp only [rstripNL_ok, List.length_append, List.length_cons,
            List.length_nil]
          omega
      have hres := ih rest (buf ++ [rstripNL "OK\n"]) hm'
        (by simp only [rstripNL_ok, List.length_append, List.length_cons,
          List.length_nil] at hlen ⊢; omega)
      rw [hres, rstripNL_ok, List.append_assoc, List.singleton_append,
        ← List.replicate_succ]

theorem runLoop_burst_mul (k : Nat) :
    runLoop (List.replicate (MIN_COUNT * k) (ReadEvent.line 0 "OK\n")) ⟨[], 0⟩
      = List.replicate k (SerialMsg.batch (List.replicate MIN_COUNT "OK")) := by
  induction k with
  | zero => simp [runLoop]
  | succ j ih =>
    have hsplit : MIN_COUNT * (j + 1) = MIN_COUNT + MIN_COUNT * j := by ring
    rw [hsplit, List.replicate_add,
      runLoop_burst_step MIN_COUNT _ [] (by norm_num [MIN_COUNT]) (by simp),
      ih, List.nil_append, List.replicate_succ]

/-- C5: upon a non-empty, non-banner line, the reader flushes its
local buffer to queue B exactly when either the minimum interval
(100 ms) has elapsed since the last flush or the buffer has reached the
minimum count (20 lines); consequently a 500-line burst arriving
instantaneously at time 0 is delivered as exactly 25 batches. -/
theorem C5_flush_cadence (st : SerialState) (t : ℚ) (raw : String)
    (rest : List ReadEvent)
    (h1 : rstripNL raw ≠ "") (h2 : isBanner (rstripNL raw) = false)
    (h3 : t - st.lastUpdate ≥ MIN_INTERVAL ∨
      (st.buffer ++ [rstripNL raw]).length ≥ MIN_COUNT) :
    runLoop (ReadEvent.line t raw :: rest) st
      = SerialMsg.batch (st.buffer ++ [rstripNL raw]) :: runLoop rest ⟨[], t⟩
    ∧ runLoop (List.replicate 500 (ReadEvent.line 0 "OK\n")) ⟨[], 0⟩
      = List.replicate 25 (SerialMsg.batch (List.replicate 20 "OK")) := by
  refine ⟨runLoop_line_flush st t raw rest h1 h2 h3, ?_⟩
  have h500 : (500 : Nat) = MIN_COUNT * 25 := by norm_num [MIN_COUNT]
  have h20 : (20 : Nat) = MIN_COUNT := by norm_num [MIN_COUNT]
  rw [h500, h20, runLoop_burst_mul]

/-- Concrete run of C5: a 20th buffered line triggers an immediate
flush of all 20 lines as one batch even though no time has elapsed. -/
theorem C5_flush_cadence_witness :
    rstripNL "STATUS\n" ≠ ""
    ∧ runLoop [ReadEvent.line 0 "STATUS\n"] ⟨List.replicate 19 "x", 0⟩
        = [SerialMsg.batch (List.replicate 19 "x" ++ ["STATUS"])] := by
  constructor
  · decide
  · have h := (C5_flush_cadence ⟨List.replicate 19 "x", 0⟩ 0 "STATUS\n" []
      (by decide) (by decide) (Or.inr (by decide))).1
    have e : rstripNL "STATUS\n" = "STATUS" := by decide
    simpa [runLoop, e] using h

/-- C6: a line whose stripped text begins with the reserved banner
marker contributes nothing to the loop (it never reaches queue B),
while the non-banner line OK followed by end-of-stream always ends up
inside a batch delivered to queue B. -/
theorem C6_banner_filtered (st : SerialState) (t u : ℚ) (raw : String)
    (rest : List ReadEvent) (hb : isBanner (rstripNL raw) = true) :
    runLoop (ReadEvent.line t raw :: rest) st = runLoop rest st
    ∧ ∃ b, SerialMsg.batch b ∈
        runLoop [ReadEvent.line t "OK\n", ReadEvent.eofExited u] st
      ∧ "OK" ∈ b := by
  constructor
  · exact runLoop_line_skip st t raw rest (by simp [hb])
  · refine ⟨st.buffer ++ [rstripNL "OK\n"], ?_, by simp [rstripNL_ok]⟩
    by_cases hf : t - st.lastUpdate ≥ MIN_INTERVAL ∨
        (st.buffer ++ [rstripNL "OK\n"]).length ≥ MIN_COUNT
    · rw [runLoop_line_flush st t "OK\n" _ (by decide) (by decide) hf]
      simp
    · rw [runLoop_line_buffer st t "OK\n" _ (by decide) (by decide) hf]
      simp [runLoop]

/-- Concrete run of C6: the platformio banner line is dropped while OK
is delivered. -/
theorem C6_banner_filtered_witness :
    isBanner (rstripNL "---platformio banner---\n") = true
    ∧ runLoop [ReadEvent.line 0 "---platformio banner---\n"] ⟨[], 0⟩
        = runLoop [] (⟨[], 0⟩ : SerialState)
    ∧ ∃ b, SerialMsg.batch b ∈
        runLoop [ReadEvent.line 0 "OK\n", ReadEvent.eofExited 0] ⟨[], 0⟩
      ∧ "OK" ∈ b := by
  refine ⟨by decide, ?_, ?_⟩
  · exact (C6_banner_filtered ⟨[], 0⟩ 0 0 "---platformio banner---\n" []
      (by decide)).1
  · exact (C6_banner_filtered ⟨[], 0⟩ 0 0 "---platformio banner---\n" []
      (by decide)).2

/-- C7 as stated is false: after the exception handler pushes its error
line, the loop keeps running (here it goes on to process an
end-of-stream event and push the stop notice), instead of stopping with
the error line as its only output. -/
theorem C7_error_stop_refuted :
    runLoop [ReadEvent.readError 0 "boom", ReadEvent.eofExited 0] ⟨[], 0⟩
      ≠ [SerialMsg.errorMsg "boom"] := by
  decide

/-- C7 (amended): on a read error the loop pushes exactly one LogLine
describing that error occurrence and then continues with its buffer and
timing state unchanged (there is no break in the handler). -/
theorem C7_error_continues (st : SerialState) (t : ℚ) (msg : String)
    (rest : List ReadEvent) :
    runLoop (ReadEvent.readError t msg :: rest) st
      = SerialMsg.errorMsg msg :: runLoop rest st := by
  simp only [runLoop]

/-- C8: on end-of-stream with the subprocess exited, the loop flushes
whatever lines remain in the local buffer as one batch (nothing when
the buffer is empty), pushes the final stop notice, and stops: any
later events are ignored. -/
theorem C8_eof_flush_and_stop (st : SerialState) (t : ℚ)
    (rest : List ReadEvent) :
    runLoop (ReadEvent.eofExited t :: rest) st
      = (if st.buffer = [] then [] else [SerialMsg.batch st.buffer])
          ++ [SerialMsg.stopped] := by
  simp only [runLoop]

/-! ### Command dispatch theorems -/

/-- C1 as stated is false: `send_command` performs no settle delay of
any length; in particular, submitting `WIFI CONNECT ssid pass` while
connected spends 0 s (not at least 2.0 s) sleeping before returning. -/
theorem C1_settle_delay_refuted :
    ¬ (2 ≤ totalSleep
      (send_command true true true "" "12:00:00" "WIFI CONNECT ssid pass").1) := by
  norm_num [send_command, totalSleep]

/-- C1 (amended): for every command submitted while the push channel is
Connected, `send_command` waits no settle delay at all before returning
(total sleep 0 s for every command class); the echo LogLine is the
first effect, displayed immediately upon submission, and a successful
write returns success right away. -/
theorem C1_no_settle_delay (writeOk : Bool) (writeErr ts command : String) :
    totalSleep (send_command true true writeOk writeErr ts command).1 = 0
    ∧ (send_command true true writeOk writeErr ts command).1.head?
        = some (BtEffect.display (echoLine ts command))
    ∧ send_command true true true writeErr ts command
        = ([BtEffect.display (echoLine ts command),
            BtEffect.gattWrite command], true) := by
  cases writeOk <;> simp [send_command, totalSleep]

/-- C2: a command submitted while the push channel is Disconnected
returns failure, performs no outbound GATT write, and displays nothing
beyond the explicit not-connected notice; moreover the input handler
never even dispatches a command while disconnected. -/
theorem C2_disconnected_no_write (hasClient writeOk : Bool)
    (writeErr ts command value : String) :
    (send_command false hasClient writeOk writeErr ts command).2 = false
    ∧ (send_command false hasClient writeOk writeErr ts command).1
        = [BtEffect.display (notConnectedLine ts)]
    ∧ (∀ payload, BtEffect.gattWrite payload ∉
        (send_command false hasClient writeOk writeErr ts command).1)
    ∧ ∀ c, on_input_submitted value false ≠ InputAction.dispatch c := by
  refine ⟨by simp [send_command], by simp [send_command], ?_, ?_⟩
  · intro payload
    simp [send_command]
  · intro c
    simp only [on_input_submitted]
    split
    · simp
    · simp

/-! ### Notification handler theorems -/

/-- C9: a payload that fails strict UTF-8 decoding is never discarded:
the handler queues the binary-marked fallback entry whose text is the
hex dump of the payload. -/
theorem C9_binary_never_dropped (data : List Nat)
    (h : decodeUtf8 data = none) :
    notification_handler data = some (NotifEntry.binary (bytesHex data)) := by
  unfold notification_handler
  rw [h]

/-- Concrete run of C9: the 0xFF byte is invalid UTF-8 and is queued as
its hex dump. -/
theorem C9_binary_never_dropped_witness :
    decodeUtf8 [255] = none
    ∧ notification_handler [255] = some (NotifEntry.binary "ff") := by
  refine ⟨by decide, ?_⟩
  rw [C9_binary_never_dropped [255] (by decide)]
  decide

/-- C10: a payload that decodes successfully but whose text is empty
after stripping trailing newline and carriage-return characters is
silently dropped: the handler queues nothing at all. -/
theorem C10_empty_after_strip_dropped (data cps : List Nat)
    (h1 : decodeUtf8 data = some cps) (h2 : rstripCodes cps = []) :
    notification_handler data = none := by
  unfold notification_handler
  rw [h1]
  simp [h2]

/-- Concrete run of C10: the payload consisting of one LF and one CR
byte decodes to text that strips to empty, and nothing is queued. -/
theorem C10_empty_after_strip_dropped_witness :
    decodeUtf8 [10, 13] = some [10, 13]
    ∧ rstripCodes [10, 13] = []
    ∧ notification_handler [10, 13] = none :=
  ⟨by decide, by decide,
    C10_empty_after_strip_dropped [10, 13] [10, 13] (by decide) (by decide)⟩

end ESP32Terminal
